import Mathlib

/-!
Verification of the structural deep-equality comparator of this repository.

The comparator is the function assertEquals of the main source file: it
compares an expected and an actual runtime value, returning a pass string
or throwing an Error describing the first divergence.  JavaScript values
are embedded shallowly: primitives are carried directly, while objects and
arrays live in an explicit heap and are denoted by references, so that
self-referential (cyclic) structures are representable.  Thrown errors
become an error result carrying the failure kind (the spec's taxonomy name
for the throw site) and the exact message string the source builds.
Recursion is driven by a fuel parameter; a separate theorem shows that
fuel heapSize + 1 never runs out, which is the termination content of the
original recursion.
-/

/-- A JavaScript runtime value: a primitive, null, undefined, a
reference (by address) to a composite stored in the heap, or one of the
built-in members inherited from the object prototype.  Numbers carry an
integer together with the distinguished NaN, the one number the
comparator can tell apart from every number including itself (=== is not
reflexive at NaN); the comparator applies no arithmetic, so other
non-integer doubles behave like any other number.  protoFn names one of
the shared built-in functions of the object prototype — a single
function object per name, so the name determines reference identity —
and protoObj is the object prototype object itself. -/
inductive Value where
  | str (s : String)
  | num (n : Int)
  | nan
  | bool (b : Bool)
  | null
  | undefined
  | ref (i : Nat)
  | protoFn (name : String)
  | protoObj
deriving DecidableEq, Repr

/-- A heap-allocated composite: an array of values or an object given as
an ordered list of fields (JavaScript own-key insertion order). -/
inductive HObj where
  | arr (elems : List Value)
  | obj (fields : List (String × Value))
deriving DecidableEq, Repr

/-- The heap: address i denotes the i-th entry. -/
abbrev Heap := List HObj

/-- The visited map of the comparator.  The source uses a Map whose keys
are the expected-side values already entered (map.set(expected, actual));
only key membership (map.has) is ever queried, so the stored actual is
dropped and the map is the list of inserted keys. -/
abbrev VMap := List Value

/-- Heap lookup; out-of-range addresses (unreachable for heaps built from
real JavaScript values) act as an empty object. -/
def lookupObj (h : Heap) (i : Nat) : HObj := h.getD i (.obj [])

/-- The JavaScript typeof operator on the embedded values.  typeof null
and typeof of any object or array is "object"; typeof NaN is "number";
typeof of a built-in prototype function is "function". -/
def jsTypeof : Value → String
  | .str _ => "string"
  | .num _ => "number"
  | .nan => "number"
  | .bool _ => "boolean"
  | .undefined => "undefined"
  | .null => "object"
  | .ref _ => "object"
  | .protoFn _ => "function"
  | .protoObj => "object"

/-- JavaScript strict equality ===: value identity on primitives,
reference identity on composites (the address; for the shared built-in
functions the prototype member name), and never true at NaN — === is not
reflexive there. -/
def jsStrictEq (x y : Value) : Bool :=
  if x = Value.nan ∨ y = Value.nan then false else decide (x = y)

/-- Array.isArray. -/
def isArray (h : Heap) (v : Value) : Bool :=
  match v with
  | .ref i => match lookupObj h i with
    | .arr _ => true
    | .obj _ => false
  | _ => false

/-- Whether the value is a reference to a (non-array) object. -/
def isObjRef (h : Heap) (v : Value) : Bool :=
  match v with
  | .ref i => match lookupObj h i with
    | .arr _ => false
    | .obj _ => true
  | _ => false

/-- The source's objType helper: "Array", "Null" or "Object". -/
def objType (h : Heap) (v : Value) : String :=
  if isArray h v then "Array" else if v = .null then "Null" else "Object"

/-- First own field of the given name, none when the object has no such
own key. -/
def findField? : List (String × Value) → String → Option Value
  | [], _ => none
  | (k0, v) :: fs, k => if k0 = k then some v else findField? fs k

/-- The own property names of the object prototype that hold built-in
functions; a property read that misses the object's own keys finds these
inherited members, so reading them never yields undefined. -/
def objectProtoFns : List String :=
  ["constructor", "hasOwnProperty", "isPrototypeOf", "propertyIsEnumerable",
   "toLocaleString", "toString", "valueOf", "__defineGetter__",
   "__defineSetter__", "__lookupGetter__", "__lookupSetter__"]

/-- The inherited part of a property read on a plain object: a built-in
function for the prototype's function members, the prototype object
itself for the proto accessor, undefined otherwise. -/
def objectProtoGet (k : String) : Value :=
  if k ∈ objectProtoFns then .protoFn k
  else if k = "__proto__" then .protoObj
  else .undefined

/-- Own property read on the object prototype object: its function
members, the proto accessor (whose value there is null), else
undefined. -/
def protoObjGet (k : String) : Value :=
  if k ∈ objectProtoFns then .protoFn k
  else if k = "__proto__" then .null
  else .undefined

/-- Property read on a plain object: the own field when present (an own
field shadows the prototype even when its value is undefined), else the
inherited member. -/
def objGet (fs : List (String × Value)) (k : String) : Value :=
  match findField? fs k with
  | some v => v
  | none => objectProtoGet k

/-- Parse a string of decimal digits as an array index. -/
def parseIndexAux : List Char → Nat → Option Nat
  | [], acc => some acc
  | c :: cs, acc =>
      if c.isDigit then parseIndexAux cs (acc * 10 + (c.toNat - 48)) else none

/-- Parse a nonempty all-digit string as an array index. -/
def parseIndex (s : String) : Option Nat :=
  match s.data with
  | [] => none
  | _ => parseIndexAux s.data 0

/-- JavaScript property read v[k], consulting the prototype chain when
the own keys miss.  For arrays the comparator only ever reads the length
property and the canonical indices (its key lists are exactly those), so
the array prototype's own function members, which differ from the object
prototype's, are not modeled separately and a non-index miss falls to
the object-prototype members; function and primitive receivers never
undergo a property read in the comparator, since typeof gates the
composite branch to "object". -/
def getProp (h : Heap) (v : Value) (k : String) : Value :=
  match v with
  | .ref i =>
    match lookupObj h i with
    | .arr xs =>
      if k = "length" then .num xs.length
      else
        match parseIndex k with
        | some n => xs.getD n .undefined
        | none => objectProtoGet k
    | .obj fs => objGet fs k
  | .protoObj => protoObjGet k
  | _ => .undefined

/-- Object.keys (also the enumeration order of a for..in loop): array
indices as decimal strings, or object field names in insertion order. -/
def objectKeys (h : Heap) (v : Value) : List String :=
  match v with
  | .ref i =>
    match lookupObj h i with
    | .arr xs => (List.range xs.length).map (fun n => toString n)
    | .obj fs => fs.map Prod.fst
  | _ => []

/-- The optional-chained read v?.length used by the source's length
check: a property read, so a plain object's miss falls to the prototype,
where no length member exists (the length check only ever runs on the
two operands of the object branch, never on a function, whose arity
property is therefore not modeled). -/
def jsLength (h : Heap) (v : Value) : Value :=
  match v with
  | .ref i =>
    match lookupObj h i with
    | .arr xs => .num xs.length
    | .obj fs => objGet fs "length"
  | .str s => .num s.length
  | _ => .undefined

/-- String interpolation of a value inside a template literal, for the
values that reach the source's message sites; a native function prints
its source stub. -/
def jsToString : Value → String
  | .str s => s
  | .num n => toString n
  | .nan => "NaN"
  | .bool true => "true"
  | .bool false => "false"
  | .null => "null"
  | .undefined => "undefined"
  | .ref _ => "[object Object]"
  | .protoFn n => "function " ++ n ++ "() \x7b [native code] \x7d"
  | .protoObj => "[object Object]"

/-- The source's [...keyTrace, key].join(".") dotted key path. -/
def joinDot (ks : List String) : String := String.intercalate "." ks

/-- The spec's failure taxonomy; each kind names one throw site of
assertEquals. -/
inductive FailKind where
  | TypeMismatch
  | ShapeMismatch
  | ValueMismatch
  | LengthMismatch
  | MissingKey
  | UnexpectedKey
  | MissingValue
deriving DecidableEq, Repr

/-- A thrown comparison failure: its taxonomy kind and the exact message
string the source builds. -/
structure Failure where
  kind : FailKind
  msg : String
deriving DecidableEq, Repr

/-- Result of a call to assertEquals: the pass string together with the
updated visited map, a thrown failure, or fuel exhaustion (shown
unreachable for sufficient fuel). -/
inductive Res where
  | pass (vm : VMap) (s : String)
  | err (fl : Failure)
  | outOfFuel
deriving DecidableEq, Repr

/-- The key-count branch of assertEquals: when both sides have equal
length properties but different own-key counts, scan the larger side for
the first key whose property read is undefined on the other side.  The
read consults the prototype, so a key shadowing an inherited member
(toString and the like) is never seen as absent; and when the scan finds
nothing the source falls through to the main key loop, hence the Option
result. -/
def keyCountScan (h : Heap) (msg : String) (e a : Value) (kt : List String) :
    Option Failure :=
  let ek := objectKeys h e
  let ak := objectKeys h a
  if ek.length ≠ ak.length then
    if ek.length > ak.length then
      (ek.find? (fun k => decide (getProp h a k = .undefined))).map
        (fun k => ⟨.MissingKey,
          msg ++ ": Expected " ++ joinDot (kt ++ [k]) ++ " but was not found"⟩)
    else
      (ak.find? (fun k => decide (getProp h e k = .undefined))).map
        (fun k => ⟨.UnexpectedKey,
          msg ++ ": Found unexpected " ++ joinDot (kt ++ [k])⟩)
  else none

/-- The source's for (let key in expected) loop.  step is the recursive
call at one less fuel; the visited map is threaded through the iterations
because the source mutates one shared Map in place.  The recursive call's
value is discarded by the source, but a thrown error propagates, so a
non-pass result short-circuits. -/
def compareKeys (step : Value → Value → List String → VMap → Res) (h : Heap)
    (msg : String) (e a : Value) (kt : List String) :
    List String → VMap → Res
  | [], vm => .pass vm (msg ++ ": Pass!")
  | k :: ks, vm =>
    if jsTypeof (getProp h e k) = "object" ∨ jsTypeof (getProp h a k) = "object" then
      match step (getProp h e k) (getProp h a k) (kt ++ [k]) vm with
      | .pass vm2 _ => compareKeys step h msg e a kt ks vm2
      | r => r
    else if jsStrictEq (getProp h e k) (getProp h a k) = false then
      if getProp h a k = .undefined then
        .err ⟨.MissingValue,
          msg ++ ": Expected " ++ joinDot (kt ++ [k]) ++ " but was not found"⟩
      else
        .err ⟨.ValueMismatch,
          msg ++ ": Expected " ++ joinDot (kt ++ [k]) ++ " \"" ++
            jsToString (getProp h e k) ++ "\" but found \"" ++
            jsToString (getProp h a k) ++ "\""⟩
    else compareKeys step h msg e a kt ks vm

/-- One unfolding of the body of assertEquals, with step standing for the
recursive call.  The branches follow the source line by line: strict
identity (===, never true at NaN), the cycle guard (Map.has uses
SameValueZero, under which NaN does match a NaN key, hence plain
equality there), map.set(expected, actual), the typeof check, the
Array.isArray check, the primitive branch, the null branch, the length
check, the key-count scan and the key loop. -/
def assertStep (h : Heap) (step : Value → Value → List String → VMap → Res)
    (msg : String) (e a : Value) (kt : List String) (vm : VMap) : Res :=
  if jsStrictEq e a then .pass vm (msg ++ ": Pass!")
  else if e ∈ vm ∨ a ∈ vm then .pass vm (msg ++ ": Pass!")
  else if jsTypeof e ≠ jsTypeof a then
    .err ⟨.TypeMismatch,
      msg ++ ": Expected type \"" ++ jsTypeof e ++ "\" but found type \"" ++
        jsTypeof a ++ "\""⟩
  else if isArray h e ≠ isArray h a then
    .err ⟨.ShapeMismatch,
      msg ++ ": Expected type \"" ++ objType h e ++ "\" but found type \"" ++
        objType h a ++ "\""⟩
  else if jsTypeof a ≠ "object" then
    if jsStrictEq e a = false then
      .err ⟨.ValueMismatch,
        msg ++ ": Expected \"" ++ jsToString e ++ "\" but found \"" ++
          jsToString a ++ "\""⟩
    else .pass (e :: vm) (msg ++ ": Pass!")
  else if (e = .null ∨ a = .null) ∧ jsStrictEq e a = false then
    .err ⟨.ShapeMismatch,
      msg ++ ": Expected type " ++ objType h e ++ " but found " ++ objType h a⟩
  else if jsStrictEq (jsLength h e) (jsLength h a) = false then
    .err ⟨.LengthMismatch,
      msg ++ ": Expected array length \"" ++ jsToString (jsLength h e) ++
        "\" but found length \"" ++ jsToString (jsLength h a) ++ "\""⟩
  else
    match keyCountScan h msg e a kt with
    | some fl => .err fl
    | none => compareKeys step h msg e a kt (objectKeys h e) (e :: vm)

/-- The comparator assertEquals(message, expected, actual, keyTrace, map)
of the source, with an explicit fuel bounding the recursion depth. -/
def assertEquals (h : Heap) :
    Nat → String → Value → Value → List String → VMap → Res
  | 0, _, _, _, _, _ => .outOfFuel
  | fuel + 1, msg, e, a, kt, vm =>
    assertStep h (fun e2 a2 kt2 vm2 => assertEquals h fuel msg e2 a2 kt2 vm2)
      msg e a kt vm

/-- A test case of the harness. -/
structure TestCase where
  message : String
  expected : Value
  actual : Value

/-- The source's runTest: call assertEquals and catch, returning the pass
string on success and the error's message on a thrown failure.  The fuel
heapSize + 1 is enough by the termination theorem, so the outOfFuel
branch is unreachable. -/
def runTest (h : Heap) (tc : TestCase) : String :=
  match assertEquals h (h.length + 1) tc.message tc.expected tc.actual [] [] with
  | .pass _ s => s
  | .err fl => fl.msg
  | .outOfFuel => tc.message

/-- Number of heap addresses whose reference is not yet in the visited
map: the termination measure of the recursion. -/
def freeAddrs (h : Heap) (vm : VMap) : Nat :=
  ((List.range h.length).filter (fun i => decide (Value.ref i ∉ vm))).length

/-- Substring containment, used to state that a message mentions a path
or a value. -/
def strHas (s pat : String) : Prop := pat.data <:+: s.data

instance (s pat : String) : Decidable (strHas s pat) :=
  List.decidableInfix pat.data s.data

/- Concrete heaps for the claims' example inputs. -/

/-- Heap for expected = the object with a 1 and b (c 2), actual = the
object with a 1 and b (c 3); expected is ref 1, actual is ref 3. -/
def hC3 : Heap :=
  [.obj [("c", .num 2)],
   .obj [("a", .num 1), ("b", .ref 0)],
   .obj [("c", .num 3)],
   .obj [("a", .num 1), ("b", .ref 2)]]

/-- Heap with two independent one-node self-referential objects: ref 0 is
a with a.self = a, ref 1 is c with c.self = c. -/
def hCyc : Heap := [.obj [("self", .ref 0)], .obj [("self", .ref 1)]]

/-- Heap for expected = the object with key a only, actual = the object
with keys a and c. -/
def hC6 : Heap :=
  [.obj [("a", .str "a")], .obj [("a", .str "a"), ("c", .str "c")]]

/-- Heap for expected = the object whose key a holds an empty object and
actual = the object whose key a holds the number 5. -/
def hC7 : Heap := [.obj [], .obj [("a", .ref 0)], .obj [("a", .num 5)]]

/-- Heap for the shared-reference example: ref 0 is s with p 1; expected
ref 1 has x and y both s; actual ref 4 has x (p 1) and y (p 2). -/
def hC10 : Heap :=
  [.obj [("p", .num 1)],
   .obj [("x", .ref 0), ("y", .ref 0)],
   .obj [("p", .num 1)],
   .obj [("p", .num 2)],
   .obj [("x", .ref 2), ("y", .ref 3)]]

/-- Heap with a single empty object, for comparing null against it. -/
def hC4w : Heap := [.obj []]

/-- Heap whose expected object shadows the inherited toString member:
ref 0 has keys toString (value 1) and x (value 2); ref 1 has key x
only. -/
def hC6cx : Heap :=
  [.obj [("toString", .num 1), ("x", .num 2)], .obj [("x", .num 2)]]

/-- Heap with the arrays of two and of three string elements. -/
def hC5w : Heap :=
  [.arr [.str "a", .str "b"], .arr [.str "a", .str "b", .str "c"]]

example : assertEquals hCyc 3 "t" (.ref 0) (.ref 1) [] [] =
    .pass [.ref 0] "t: Pass!" := by decide

example : assertEquals hC3 5 "t" (.ref 1) (.ref 3) [] [] =
    .err ⟨.ValueMismatch, "t: Expected b.c \"2\" but found \"3\""⟩ := by decide

example : assertEquals hC10 10 "t" (.ref 1) (.ref 4) [] [] =
    .pass [.ref 0, .ref 1] "t: Pass!" := by decide

example : assertEquals hC6 5 "t" (.ref 0) (.ref 1) [] [] =
    .err ⟨.UnexpectedKey, "t: Found unexpected c"⟩ := by decide

example : assertEquals hC5w 5 "t" (.ref 0) (.ref 1) [] [] =
    .err ⟨.LengthMismatch,
      "t: Expected array length \"2\" but found length \"3\""⟩ := by decide

example : assertEquals hC4w 5 "t" .null (.ref 0) [] [] =
    .err ⟨.ShapeMismatch, "t: Expected type Null but found Object"⟩ := by decide

example : assertEquals hC7 5 "t" (.ref 1) (.ref 2) [] [] =
    .err ⟨.TypeMismatch,
      "t: Expected type \"object\" but found type \"number\""⟩ := by decide

example : assertEquals [] 2 "t" (.str "abc") (.str "abc") [] [] =
    .pass [] "t: Pass!" := by decide

/- Helper lemmas: counting, visited-map monotonicity, termination. -/

/-- Appending strings concatenates their character data. -/
theorem strData_append (s t : String) : (s ++ t).data = s.data ++ t.data := rfl

/-- A pointwise implication between Boolean predicates cannot shrink the
filtered length. -/
theorem filter_length_le_of_imp {α : Type} (p q : α → Bool) (l : List α)
    (himp : ∀ x ∈ l, p x = true → q x = true) :
    (l.filter p).length ≤ (l.filter q).length := by
  induction l with
  | nil => simp
  | cons y l ih =>
    have ih2 := ih (fun z hz hp => himp z (List.mem_cons_of_mem y hz) hp)
    by_cases hp : p y = true
    · have hq := himp y (List.mem_cons_self y l) hp
      simp only [List.filter_cons, hp, hq, if_true, List.length_cons]
      exact Nat.succ_le_succ ih2
    · simp only [List.filter_cons, if_neg hp]
      by_cases hq : q y = true
      · simp only [hq, if_true, List.length_cons]
        exact Nat.le_succ_of_le ih2
      · simp only [hq, if_false]
        exact ih2

/-- A strict version of the previous lemma: an element kept by q but
dropped by p makes the q-filter strictly longer. -/
theorem filter_length_lt_of_witness {α : Type} (p q : α → Bool) (l : List α)
    (x : α) (hpx : p x = false) (hqx : q x = true) :
    x ∈ l → (∀ y ∈ l, p y = true → q y = true) →
    (l.filter p).length < (l.filter q).length := by
  induction l with
  | nil => intro hx _; cases hx
  | cons y l ih =>
    intro hx himp
    have himp2 : ∀ z ∈ l, p z = true → q z = true :=
      fun z hz hp => himp z (List.mem_cons_of_mem y hz) hp
    rcases List.mem_cons.mp hx with rfl | hx2
    · simp only [List.filter_cons, hpx, hqx, if_true, if_false,
        List.length_cons]
      exact Nat.lt_succ_of_le (filter_length_le_of_imp p q l himp2)
    · by_cases hpy : p y = true
      · have hqy := himp y (List.mem_cons_self y l) hpy
        simp only [List.filter_cons, hpy, hqy, if_true, List.length_cons]
        exact Nat.succ_lt_succ (ih hx2 himp2)
      · simp only [List.filter_cons, if_neg hpy]
        by_cases hqy : q y = true
        · simp only [hqy, if_true, List.length_cons]
          exact Nat.lt_succ_of_lt (ih hx2 himp2)
        · simp only [hqy, if_false]
          exact ih hx2 himp2

/-- Growing the visited map cannot increase the number of unvisited
addresses. -/
theorem freeAddrs_le_of_suffix (h : Heap) {vm vm2 : VMap}
    (hs : vm <:+ vm2) : freeAddrs h vm2 ≤ freeAddrs h vm := by
  apply filter_length_le_of_imp
  intro i _ hdec
  have hni : Value.ref i ∉ vm2 := of_decide_eq_true hdec
  exact decide_eq_true (fun hmem => hni (hs.subset hmem))

/-- Inserting the reference of a live, unvisited address strictly
decreases the number of unvisited addresses. -/
theorem freeAddrs_lt_insert {h : Heap} {vm : VMap} {i : Nat}
    (hi : i < h.length) (hmem : Value.ref i ∉ vm) :
    freeAddrs h (Value.ref i :: vm) < freeAddrs h vm := by
  apply filter_length_lt_of_witness _ _ _ i
  · exact decide_eq_false (fun hni => hni (List.mem_cons_self _ _))
  · exact decide_eq_true hmem
  · exact List.mem_range.mpr hi
  · intro y _ hp
    have hny : Value.ref y ∉ Value.ref i :: vm := of_decide_eq_true hp
    exact decide_eq_true (fun hmem2 => hny (List.mem_cons_of_mem _ hmem2))

/-- The key loop only ever extends the visited map, provided the
recursive step does. -/
theorem compareKeys_mono {step : Value → Value → List String → VMap → Res}
    {h : Heap} {msg : String} {e a : Value} {kt : List String}
    (hstep : ∀ e2 a2 kt2 vm2 vm3 s, step e2 a2 kt2 vm2 = .pass vm3 s →
      vm2 <:+ vm3) :
    ∀ ks vm vm3 s, compareKeys step h msg e a kt ks vm = .pass vm3 s →
      vm <:+ vm3 := by
  intro ks
  induction ks with
  | nil =>
    intro vm vm3 s hres
    simp only [compareKeys] at hres
    cases hres
    exact List.suffix_refl _
  | cons k ks ih =>
    intro vm vm3 s hres
    simp only [compareKeys] at hres
    split at hres
    · split at hres
      · rename_i vm2 s2 heq
        exact (hstep _ _ _ _ _ _ heq).trans (ih _ _ _ hres)
      · rename_i r hnp
        exact (hnp _ _ hres).elim
    · split at hres
      · split at hres <;> simp at hres
      · exact ih _ _ _ hres

/-- assertEquals only ever extends the visited map. -/
theorem assertEquals_mono :
    ∀ (fuel : Nat) (h : Heap) (msg : String) (e a : Value)
      (kt : List String) (vm vm3 : VMap) (s : String),
      assertEquals h fuel msg e a kt vm = .pass vm3 s → vm <:+ vm3 := by
  intro fuel
  induction fuel with
  | zero =>
    intro h msg e a kt vm vm3 s hres
    simp [assertEquals] at hres
  | succ f ih =>
    intro h msg e a kt vm vm3 s hres
    simp only [assertEquals] at hres
    unfold assertStep at hres
    split at hres
    · cases hres; exact List.suffix_refl _
    · split at hres
      · cases hres; exact List.suffix_refl _
      · split at hres
        · simp at hres
        · split at hres
          · simp at hres
          · split at hres
            · split at hres
              · simp at hres
              · cases hres; exact List.suffix_cons _ _
            · split at hres
              · simp at hres
              · split at hres
                · simp at hres
                · split at hres
                  · simp at hres
                  · exact (List.suffix_cons _ _).trans
                      (compareKeys_mono
                        (fun e2 a2 kt2 vm2 vm4 s2 hst =>
                          ih h msg e2 a2 kt2 vm2 vm4 s2 hst)
                        _ _ _ _ hres)

/-- The key loop cannot run out of fuel when the recursive step cannot,
for visited maps at least as advanced as the current one. -/
theorem compareKeys_ne_outOfFuel
    {step : Value → Value → List String → VMap → Res} {h : Heap}
    {msg : String} {e a : Value} {kt : List String} {B : Nat}
    (hstepf : ∀ e2 a2 kt2 vm2, freeAddrs h vm2 ≤ B →
      step e2 a2 kt2 vm2 ≠ .outOfFuel)
    (hstepm : ∀ e2 a2 kt2 vm2 vm3 s, step e2 a2 kt2 vm2 = .pass vm3 s →
      vm2 <:+ vm3) :
    ∀ ks vm, freeAddrs h vm ≤ B →
      compareKeys step h msg e a kt ks vm ≠ .outOfFuel := by
  intro ks
  induction ks with
  | nil => intro vm hvm; simp [compareKeys]
  | cons k ks ih =>
    intro vm hvm
    simp only [compareKeys]
    split
    · split
      · rename_i vm2 s2 heq
        exact ih _ (le_trans
          (freeAddrs_le_of_suffix h (hstepm _ _ _ _ _ _ heq)) hvm)
      · rename_i r hnp
        exact hstepf _ _ _ _ hvm
    · split
      · split <;> simp
      · exact ih _ hvm

/-- Termination of the comparator: with more fuel than unvisited heap
addresses, assertEquals never runs out.  Every frame that recurses has
passed the cycle guard and inserted a live, previously unvisited
reference into the shared visited map, so the recursion depth is bounded
by the heap size. -/
theorem assertEquals_ne_outOfFuel :
    ∀ (fuel : Nat) (h : Heap) (msg : String) (e a : Value)
      (kt : List String) (vm : VMap), freeAddrs h vm < fuel →
      assertEquals h fuel msg e a kt vm ≠ .outOfFuel := by
  intro fuel
  induction fuel with
  | zero => intro h msg e a kt vm hlt; exact absurd hlt (Nat.not_lt_zero _)
  | succ f ih =>
    intro h msg e a kt vm hlt
    simp only [assertEquals]
    unfold assertStep
    split
    · simp
    · split
      · simp
      · split
        · simp
        · split
          · simp
          · split
            · split <;> simp
            · split
              · simp
              · split
                · simp
                · split
                  · simp
                  · have hfirst : ¬jsStrictEq e a = true := by assumption
                    have hg : ¬(e ∈ vm ∨ a ∈ vm) := by assumption
                    have hnull : ¬((e = Value.null ∨ a = Value.null) ∧
                        jsStrictEq e a = false) := by
                      assumption
                    have hsf : jsStrictEq e a = false := by
                      cases h2 : jsStrictEq e a
                      · rfl
                      · exact absurd h2 hfirst
                    have htyp : jsTypeof e = "object" :=
                      (not_ne_iff.mp (by assumption : ¬jsTypeof e ≠ jsTypeof a)).trans
                        (not_ne_iff.mp (by assumption : ¬jsTypeof a ≠ "object"))
                    have henull : e ≠ Value.null :=
                      fun heq => hnull ⟨Or.inl heq, hsf⟩
                    cases e with
                    | str s => simp [jsTypeof] at htyp
                    | num n => simp [jsTypeof] at htyp
                    | nan => simp [jsTypeof] at htyp
                    | bool b => simp [jsTypeof] at htyp
                    | null => exact absurd rfl henull
                    | undefined => simp [jsTypeof] at htyp
                    | protoFn n => simp [jsTypeof] at htyp
                    | protoObj =>
                      rw [show objectKeys h Value.protoObj = [] from rfl]
                      simp [compareKeys]
                    | ref i =>
                      by_cases hi : i < h.length
                      · have hins : freeAddrs h (Value.ref i :: vm) <
                            freeAddrs h vm :=
                          freeAddrs_lt_insert hi (fun hm => hg (Or.inl hm))
                        apply compareKeys_ne_outOfFuel
                          (B := freeAddrs h (Value.ref i :: vm))
                        · intro e2 a2 kt2 vm2 hv2
                          exact ih h msg e2 a2 kt2 vm2 (by omega)
                        · intro e2 a2 kt2 vm2 vm3 s hst
                          exact assertEquals_mono f h msg e2 a2 kt2 vm2 vm3 s hst
                        · exact le_refl _
                      · have hnone : h[i]? = none :=
                          List.getElem?_eq_none (by omega)
                        have hlook : lookupObj h i = .obj [] := by
                          simp [lookupObj, List.getD, hnone]
                        have hk : objectKeys h (Value.ref i) = [] := by
                          simp [objectKeys, hlook]
                        rw [hk]
                        simp [compareKeys]

/-- Fuel heapSize + 1 always suffices for a top-level comparison. -/
theorem assertEquals_sufficient_fuel (h : Heap) (msg : String) (e a : Value) :
    assertEquals h (h.length + 1) msg e a [] [] ≠ .outOfFuel := by
  apply assertEquals_ne_outOfFuel
  have hle : freeAddrs h [] ≤ h.length := by
    have h2 := List.length_filter_le
      (fun i => decide (Value.ref i ∉ ([] : VMap))) (List.range h.length)
    rw [List.length_range] at h2
    exact h2
  omega

/-- A string has pat as a substring when its character data factors
around pat's data. -/
theorem strHas_of_data (s pat : String) (pre post : List Char)
    (heq : s.data = pre ++ pat.data ++ post) : strHas s pat :=
  ⟨pre, post, heq.symm⟩

/-- Strict equality is reflexive away from NaN. -/
theorem jsStrictEq_refl {x : Value} (hx : x ≠ Value.nan) :
    jsStrictEq x x = true := by
  unfold jsStrictEq
  rw [if_neg (fun hc => hc.elim hx hx)]
  exact decide_eq_true rfl

/-- Distinct values are never strictly equal. -/
theorem jsStrictEq_eq_false_of_ne {x y : Value} (hne : x ≠ y) :
    jsStrictEq x y = false := by
  unfold jsStrictEq
  split
  · rfl
  · exact decide_eq_false hne

/-- Distinct values fail the strict-equality test. -/
theorem jsStrictEq_ne_true_of_ne {x y : Value} (hne : x ≠ y) :
    ¬jsStrictEq x y = true := by
  rw [jsStrictEq_eq_false_of_ne hne]
  exact Bool.false_ne_true

/-- C1 counterexample: the program is not reflexive at x = NaN, because
=== is not: compare("t", NaN, NaN) passes neither the identity
short-circuit nor the cycle guard, reaches the primitive branch, and
throws the ValueMismatch error quoting NaN on both sides. -/
theorem C1_counterexample :
    assertEquals [] 1 "t" .nan .nan [] [] =
      .err ⟨.ValueMismatch, "t: Expected \"NaN\" but found \"NaN\""⟩ := by
  decide

/-- C1 amended: for every value x other than NaN (primitive or composite,
including self-referential composites, which are references into an
arbitrary heap) and every message m, compare(m, x, x) returns a success
result, by the identity short-circuit of the first line of assertEquals;
at x = NaN the comparison instead fails with ValueMismatch, since === is
not reflexive there. -/
theorem C1_reflexivity (h : Heap) (fuel : Nat) (m : String) (x : Value)
    (kt : List String) (vm : VMap) (hx : x ≠ Value.nan) :
    assertEquals h (fuel + 1) m x x kt vm = .pass vm (m ++ ": Pass!") := by
  simp only [assertEquals]
  unfold assertStep
  rw [if_pos (jsStrictEq_refl hx)]

/-- C1 witness: the amended theorem at the concrete value 7. -/
theorem C1_reflexivity_witness :
    assertEquals [] 1 "m" (.num 7) (.num 7) [] [] =
      .pass [] ("m" ++ ": Pass!") :=
  C1_reflexivity [] 0 "m" (.num 7) [] [] (by decide)

/-- C2: Cycle termination: with fuel heapSize + 1 a top-level comparison
never exhausts its fuel, for every heap and every pair of values — the
recursion depth is bounded, so the original unbounded recursion
terminates on all inputs, cyclic ones included.  In particular, for the
two independent one-node self-referential objects a (ref 0, with
a.self = a) and c (ref 1, with c.self = c) of heap hCyc, the comparison
succeeds: re-entering a trips the cycle guard. -/
theorem C2_cycle_termination :
    (∀ (h : Heap) (m : String) (e a : Value),
      assertEquals h (h.length + 1) m e a [] [] ≠ .outOfFuel) ∧
    assertEquals hCyc (hCyc.length + 1) "t" (.ref 0) (.ref 1) [] [] =
      .pass [.ref 0] "t: Pass!" :=
  ⟨fun h m e a => assertEquals_sufficient_fuel h m e a, by decide⟩

/-- C3: comparing expected (a 1, b (c 2)) with actual (a 1, b (c 3))
fails with kind ValueMismatch, and the message contains the dotted path
b.c and both values 2 and 3. -/
theorem C3_value_mismatch :
    assertEquals hC3 5 "t" (.ref 1) (.ref 3) [] [] =
      .err ⟨.ValueMismatch, "t: Expected b.c \"2\" but found \"3\""⟩ ∧
    strHas "t: Expected b.c \"2\" but found \"3\"" "b.c" ∧
    strHas "t: Expected b.c \"2\" but found \"3\"" "2" ∧
    strHas "t: Expected b.c \"2\" but found \"3\"" "3" := by decide

/-- C8 counterexample: compare("t", "abc", "abc") does return success
keyed to the message, but the pass string of the comparator is the fixed
"t: Pass!", which does not contain the compared value "abc" (only the
superseded draft comparator in the second source file interpolated the
values into its pass message). -/
theorem C8_counterexample :
    assertEquals [] 2 "t" (.str "abc") (.str "abc") [] [] =
      .pass [] "t: Pass!" ∧
    ¬ strHas "t: Pass!" "abc" := by decide

/-- C8 amended: compare("t", "abc", "abc") returns a success result whose
message is the pass confirmation keyed to the original message label. -/
theorem C8_pass_keyed_to_message :
    assertEquals [] 2 "t" (.str "abc") (.str "abc") [] [] =
      .pass [] ("t" ++ ": Pass!") ∧
    strHas ("t" ++ ": Pass!") "t" := by decide

/-- C9: for every heap and test case, runTest returns a string and never
raises: on comparator success it returns the pass confirmation string and
on comparator failure it returns the failure's formatted message; the
out-of-fuel case is impossible at fuel heapSize + 1. -/
theorem C9_runner_total (h : Heap) (tc : TestCase) :
    (∃ vm s, assertEquals h (h.length + 1) tc.message tc.expected tc.actual
        [] [] = .pass vm s ∧ runTest h tc = s) ∨
    (∃ fl, assertEquals h (h.length + 1) tc.message tc.expected tc.actual
        [] [] = .err fl ∧ runTest h tc = fl.msg) := by
  cases hres : assertEquals h (h.length + 1) tc.message tc.expected tc.actual
      [] [] with
  | pass vm s => exact Or.inl ⟨vm, s, rfl, by simp [runTest, hres]⟩
  | err fl => exact Or.inr ⟨fl, rfl, by simp [runTest, hres]⟩
  | outOfFuel =>
    exact absurd hres
      (assertEquals_sufficient_fuel h tc.message tc.expected tc.actual)

/-- C10: the visited map is keyed by the expected-side object alone, not
by the (expected, actual) pair: with s = ref 0 shared twice inside
expected = ref 1, and actual = ref 4 holding two distinct partners, the
comparison succeeds even though expected.y.p is 1 while actual.y.p is 2 —
acyclic, structurally unequal inputs declared equal. -/
theorem C10_shared_reference_false_pass :
    assertEquals hC10 10 "t" (.ref 1) (.ref 4) [] [] =
      .pass [.ref 0, .ref 1] "t: Pass!" ∧
    getProp hC10 (getProp hC10 (.ref 1) "y") "p" = .num 1 ∧
    getProp hC10 (getProp hC10 (.ref 4) "y") "p" = .num 2 := by decide

/-- C7 counterexample: at the nested position with key path a, comparing
the object whose key a holds an empty object (ref 1 of hC7) with the
object whose key a holds 5 (ref 2) fails with TypeMismatch, but the
message does not contain the current key path a — the source's typeof
throw site omits keyTrace. -/
theorem C7_counterexample :
    assertEquals hC7 5 "t" (.ref 1) (.ref 2) [] [] =
      .err ⟨.TypeMismatch,
        "t: Expected type \"object\" but found type \"number\""⟩ ∧
    joinDot ["a"] = "a" ∧
    ¬ strHas "t: Expected type \"object\" but found type \"number\"" "a" := by
  decide

/-- C7 amended: for every pair at any position that is not
reference-identical and not short-circuited by the cycle guard, if the
runtime typeof of expected differs from that of actual, compare fails
with kind TypeMismatch and the message includes both kind names — but not
the current key path, which the typeof throw site omits. -/
theorem C7_type_mismatch (h : Heap) (f : Nat) (m : String) (e a : Value)
    (kt : List String) (vm : VMap) (ht : jsTypeof e ≠ jsTypeof a)
    (he : e ∉ vm) (ha : a ∉ vm) :
    assertEquals h (f + 1) m e a kt vm =
      .err ⟨.TypeMismatch, m ++ ": Expected type \"" ++ jsTypeof e ++
        "\" but found type \"" ++ jsTypeof a ++ "\""⟩ ∧
    strHas (m ++ ": Expected type \"" ++ jsTypeof e ++
      "\" but found type \"" ++ jsTypeof a ++ "\"") (jsTypeof e) ∧
    strHas (m ++ ": Expected type \"" ++ jsTypeof e ++
      "\" but found type \"" ++ jsTypeof a ++ "\"") (jsTypeof a) := by
  have hne : e ≠ a := fun heq => ht (heq ▸ rfl)
  refine ⟨?_, ?_, ?_⟩
  · simp only [assertEquals]
    unfold assertStep
    rw [if_neg (jsStrictEq_ne_true_of_ne hne),
      if_neg (fun hc => hc.elim he ha), if_pos ht]
  · exact strHas_of_data _ _ (m ++ ": Expected type \"").data
      ("\" but found type \"" ++ jsTypeof a ++ "\"").data
      (by simp [strData_append])
  · exact strHas_of_data _ _
      (m ++ ": Expected type \"" ++ jsTypeof e ++ "\" but found type \"").data
      ("\"").data (by simp [strData_append])

/-- C7 witness: the amended theorem at the concrete pair "x" versus 1. -/
theorem C7_type_mismatch_witness :
    assertEquals [] 1 "t" (.str "x") (.num 1) [] [] =
      .err ⟨.TypeMismatch,
        "t: Expected type \"string\" but found type \"number\""⟩ ∧
    strHas "t: Expected type \"string\" but found type \"number\"" "string" ∧
    strHas "t: Expected type \"string\" but found type \"number\"" "number" := by
  have h1 := C7_type_mismatch [] 0 "t" (.str "x") (.num 1) [] []
    (by decide) (by decide) (by decide)
  exact ⟨h1.1.trans (by decide), by decide, by decide⟩

/-- Evaluation of assertEquals to the Array.isArray throw site. -/
theorem shapeErr_arr (h : Heap) (f : Nat) (m : String) (e a : Value)
    (hne : e ≠ a) (hty : jsTypeof e = jsTypeof a)
    (harr : isArray h e ≠ isArray h a) :
    assertEquals h (f + 1) m e a [] [] = .err ⟨.ShapeMismatch,
      m ++ ": Expected type \"" ++ objType h e ++ "\" but found type \"" ++
        objType h a ++ "\""⟩ := by
  simp only [assertEquals]
  unfold assertStep
  rw [if_neg (jsStrictEq_ne_true_of_ne hne),
    if_neg (fun hc => hc.elim (List.not_mem_nil e) (List.not_mem_nil a)),
    if_neg (not_ne_iff.mpr hty), if_pos harr]

/-- Evaluation of assertEquals to the null-check throw site. -/
theorem shapeErr_null (h : Heap) (f : Nat) (m : String) (e a : Value)
    (hne : e ≠ a) (hty : jsTypeof e = jsTypeof a)
    (harr : isArray h e = isArray h a) (hobj : jsTypeof a = "object")
    (hnull : e = Value.null ∨ a = Value.null) :
    assertEquals h (f + 1) m e a [] [] = .err ⟨.ShapeMismatch,
      m ++ ": Expected type " ++ objType h e ++ " but found " ++
        objType h a⟩ := by
  simp only [assertEquals]
  unfold assertStep
  rw [if_neg (jsStrictEq_ne_true_of_ne hne),
    if_neg (fun hc => hc.elim (List.not_mem_nil e) (List.not_mem_nil a)),
    if_neg (not_ne_iff.mpr hty), if_neg (not_ne_iff.mpr harr),
    if_neg (not_ne_iff.mpr hobj),
    if_pos ⟨hnull, jsStrictEq_eq_false_of_ne hne⟩]

/-- An array reference has typeof "object". -/
theorem jsTypeof_of_isArray {h : Heap} {v : Value} (hv : isArray h v = true) :
    jsTypeof v = "object" := by
  cases v
  all_goals first | rfl | simp [isArray] at hv

/-- An object reference has typeof "object". -/
theorem jsTypeof_of_isObjRef {h : Heap} {v : Value}
    (hv : isObjRef h v = true) : jsTypeof v = "object" := by
  cases v
  all_goals first | rfl | simp [isObjRef] at hv

/-- A value cannot be both an array and a plain object reference. -/
theorem isArray_eq_false_of_isObjRef {h : Heap} {v : Value}
    (hv : isObjRef h v = true) : isArray h v = false := by
  cases v with
  | ref i =>
    simp only [isObjRef, isArray] at hv ⊢
    cases hl : lookupObj h i with
    | arr xs => rw [hl] at hv; exact Bool.noConfusion hv
    | obj fs => rfl
  | _ => rfl

/-- An array reference is not null. -/
theorem ne_null_of_isArray {h : Heap} {v : Value} (hv : isArray h v = true) :
    v ≠ Value.null := by
  cases v
  all_goals first
    | exact fun hc => Value.noConfusion hc
    | simp [isArray] at hv

/-- An object reference is not null. -/
theorem ne_null_of_isObjRef {h : Heap} {v : Value}
    (hv : isObjRef h v = true) : v ≠ Value.null := by
  cases v
  all_goals first
    | exact fun hc => Value.noConfusion hc
    | simp [isObjRef] at hv

/-- C4: for every pair of non-identical composites where one operand is
an array and the other a plain object, or where exactly one operand is
null and the other is a composite, the top-level comparison fails with
kind ShapeMismatch and the message names each side by objType, which is
Array, Object, or Null. -/
theorem C4_shape_mismatch (h : Heap) (f : Nat) (m : String) (e a : Value)
    (hcond : (isArray h e = true ∧ isObjRef h a = true) ∨
      (isObjRef h e = true ∧ isArray h a = true) ∨
      (e = Value.null ∧ (isArray h a = true ∨ isObjRef h a = true)) ∨
      ((isArray h e = true ∨ isObjRef h e = true) ∧ a = Value.null)) :
    ∃ s, assertEquals h (f + 1) m e a [] [] = .err ⟨.ShapeMismatch, s⟩ ∧
      strHas s (objType h e) ∧ strHas s (objType h a) := by
  have hquoted : ∀ s, s = m ++ ": Expected type \"" ++ objType h e ++
      "\" but found type \"" ++ objType h a ++ "\"" →
      strHas s (objType h e) ∧ strHas s (objType h a) := by
    intro s hs
    subst hs
    constructor
    · exact strHas_of_data _ _ (m ++ ": Expected type \"").data
        ("\" but found type \"" ++ objType h a ++ "\"").data
        (by simp [strData_append])
    · exact strHas_of_data _ _
        (m ++ ": Expected type \"" ++ objType h e ++
          "\" but found type \"").data ("\"").data
        (by simp [strData_append])
  have hbare : ∀ s, s = m ++ ": Expected type " ++ objType h e ++
      " but found " ++ objType h a →
      strHas s (objType h e) ∧ strHas s (objType h a) := by
    intro s hs
    subst hs
    constructor
    · exact strHas_of_data _ _ (m ++ ": Expected type ").data
        (" but found " ++ objType h a).data (by simp [strData_append])
    · exact strHas_of_data _ _
        (m ++ ": Expected type " ++ objType h e ++ " but found ").data
        [] (by simp [strData_append])
  rcases hcond with ⟨he1, ha1⟩ | ⟨he1, ha1⟩ | ⟨he1, ha1⟩ | ⟨he1, ha1⟩
  · have hne : e ≠ a := by
      intro heq
      rw [heq, isArray_eq_false_of_isObjRef ha1] at he1
      cases he1
    refine ⟨_, shapeErr_arr h f m e a hne
      ((jsTypeof_of_isArray he1).trans (jsTypeof_of_isObjRef ha1).symm)
      (by rw [he1, isArray_eq_false_of_isObjRef ha1]; simp), ?_⟩
    exact hquoted _ rfl
  · have hne : e ≠ a := by
      intro heq
      rw [← heq, isArray_eq_false_of_isObjRef he1] at ha1
      cases ha1
    refine ⟨_, shapeErr_arr h f m e a hne
      ((jsTypeof_of_isObjRef he1).trans (jsTypeof_of_isArray ha1).symm)
      (by rw [ha1, isArray_eq_false_of_isObjRef he1]; simp), ?_⟩
    exact hquoted _ rfl
  · subst he1
    rcases ha1 with ha1 | ha1
    · have hne : Value.null ≠ a := fun heq => ne_null_of_isArray ha1 heq.symm
      refine ⟨_, shapeErr_arr h f m _ a hne
        (jsTypeof_of_isArray ha1).symm
        (by rw [ha1]; simp [isArray]), ?_⟩
      exact hquoted _ rfl
    · have hne : Value.null ≠ a := fun heq => ne_null_of_isObjRef ha1 heq.symm
      refine ⟨_, shapeErr_null h f m _ a hne
        (jsTypeof_of_isObjRef ha1).symm
        (by rw [isArray_eq_false_of_isObjRef ha1]; simp [isArray])
        (jsTypeof_of_isObjRef ha1) (Or.inl rfl), ?_⟩
      exact hbare _ rfl
  · subst ha1
    rcases he1 with he1 | he1
    · have hne : e ≠ Value.null := ne_null_of_isArray he1
      refine ⟨_, shapeErr_arr h f m e _ hne
        (jsTypeof_of_isArray he1)
        (by rw [he1]; simp [isArray]), ?_⟩
      exact hquoted _ rfl
    · have hne : e ≠ Value.null := ne_null_of_isObjRef he1
      refine ⟨_, shapeErr_null h f m e _ hne
        (jsTypeof_of_isObjRef he1)
        (by rw [isArray_eq_false_of_isObjRef he1]; simp [isArray])
        rfl (Or.inr rfl), ?_⟩
      exact hbare _ rfl

/-- C4 witness: comparing null with the empty object of heap hC4w fails
with ShapeMismatch naming Null and Object. -/
theorem C4_shape_mismatch_witness :
    assertEquals hC4w 1 "t" .null (.ref 0) [] [] =
      .err ⟨.ShapeMismatch, "t: Expected type Null but found Object"⟩ ∧
    strHas "t: Expected type Null but found Object" "Null" ∧
    strHas "t: Expected type Null but found Object" "Object" := by
  obtain ⟨s, hs, h2, h3⟩ := C4_shape_mismatch hC4w 0 "t" .null (.ref 0)
    (Or.inr (Or.inr (Or.inl ⟨rfl, Or.inr (by decide)⟩)))
  have hs2 : s = "t: Expected type Null but found Object" := by
    have hconc : assertEquals hC4w (0 + 1) "t" .null (.ref 0) [] [] =
        .err ⟨.ShapeMismatch, "t: Expected type Null but found Object"⟩ := by
      decide
    rw [hs] at hconc
    injection hconc with hfl
    injection hfl.symm with hk hm
    exact hm.symm
  subst hs2
  exact ⟨hs.trans (by decide), h2, h3⟩

/-- C5: for every pair of arrays of different lengths the top-level
comparison fails with kind LengthMismatch, and the message reports both
exact lengths. -/
theorem C5_length_mismatch (h : Heap) (f : Nat) (m : String) (i j : Nat)
    (xs ys : List Value) (hi : lookupObj h i = .arr xs)
    (hj : lookupObj h j = .arr ys) (hlen : xs.length ≠ ys.length) :
    assertEquals h (f + 1) m (.ref i) (.ref j) [] [] =
      .err ⟨.LengthMismatch,
        m ++ ": Expected array length \"" ++ toString xs.length ++
          "\" but found length \"" ++ toString ys.length ++ "\""⟩ ∧
    strHas (m ++ ": Expected array length \"" ++ toString xs.length ++
      "\" but found length \"" ++ toString ys.length ++ "\"")
      (toString xs.length) ∧
    strHas (m ++ ": Expected array length \"" ++ toString xs.length ++
      "\" but found length \"" ++ toString ys.length ++ "\"")
      (toString ys.length) := by
  have hne : Value.ref i ≠ Value.ref j := by
    intro heq
    injection heq with hij
    rw [hij, hj] at hi
    injection hi with hxy
    exact hlen (hxy ▸ rfl)
  have harre : isArray h (Value.ref i) = true := by simp [isArray, hi]
  have harra : isArray h (Value.ref j) = true := by simp [isArray, hj]
  have hle : jsLength h (Value.ref i) = .num xs.length := by
    simp [jsLength, hi]
  have hla : jsLength h (Value.ref j) = .num ys.length := by
    simp [jsLength, hj]
  have hlne : jsStrictEq (jsLength h (Value.ref i))
      (jsLength h (Value.ref j)) = false := by
    rw [hle, hla]
    apply jsStrictEq_eq_false_of_ne
    intro hc
    injection hc with hc2
    exact hlen (Nat.cast_inj.mp hc2)
  refine ⟨?_, ?_, ?_⟩
  · simp only [assertEquals]
    unfold assertStep
    rw [if_neg (jsStrictEq_ne_true_of_ne hne),
      if_neg (fun hc =>
        hc.elim (List.not_mem_nil (Value.ref i)) (List.not_mem_nil (Value.ref j))),
      if_neg (not_ne_iff.mpr
        (show jsTypeof (Value.ref i) = jsTypeof (Value.ref j) from rfl)),
      if_neg (not_ne_iff.mpr (harre.trans harra.symm)),
      if_neg (not_ne_iff.mpr (show jsTypeof (Value.ref j) = "object" from rfl)),
      if_neg (fun hc => hc.1.elim
        (fun hx => Value.noConfusion hx) (fun hx => Value.noConfusion hx)),
      if_pos hlne, hle, hla]
    rfl
  · exact strHas_of_data _ _ (m ++ ": Expected array length \"").data
      ("\" but found length \"" ++ toString ys.length ++ "\"").data
      (by simp [strData_append])
  · exact strHas_of_data _ _
      (m ++ ": Expected array length \"" ++ toString xs.length ++
        "\" but found length \"").data ("\"").data
      (by simp [strData_append])

/-- C5 witness: the arrays of lengths 2 and 3 of heap hC5w fail with
LengthMismatch citing the lengths 2 and 3. -/
theorem C5_length_mismatch_witness :
    assertEquals hC5w 1 "t" (.ref 0) (.ref 1) [] [] =
      .err ⟨.LengthMismatch,
        "t: Expected array length \"2\" but found length \"3\""⟩ ∧
    strHas "t: Expected array length \"2\" but found length \"3\"" "2" ∧
    strHas "t: Expected array length \"2\" but found length \"3\"" "3" := by
  have h1 := C5_length_mismatch hC5w 0 "t" 0 1
    [.str "a", .str "b"] [.str "a", .str "b", .str "c"]
    (by decide) (by decide) (by decide)
  exact ⟨h1.1.trans (by decide), by decide, by decide⟩

/-- A key outside the field names looks up to undefined. -/
theorem findFieldQ_not_mem {fs : List (String × Value)} {k : String}
    (hk : k ∉ fs.map Prod.fst) : findField? fs k = none := by
  induction fs with
  | nil => rfl
  | cons p fs ih =>
    obtain ⟨k0, v⟩ := p
    have h1 : ¬k0 = k := fun he => hk (by simp [he])
    simp only [findField?, if_neg h1]
    exact ih (fun hm => hk (by simp [List.mem_cons_of_mem, hm]))

/-- A property read outside the own keys falls to the inherited
members. -/
theorem objGet_eq_proto_of_not_mem {fs : List (String × Value)} {k : String}
    (hk : k ∉ fs.map Prod.fst) : objGet fs k = objectProtoGet k := by
  simp only [objGet, findFieldQ_not_mem hk]

/-- A present own key reads to a defined value when no field stores
undefined. -/
theorem objGet_ne_undefined_of_mem {fs : List (String × Value)} {k : String}
    (hk : k ∈ fs.map Prod.fst) (hv : ∀ p ∈ fs, p.2 ≠ Value.undefined) :
    objGet fs k ≠ .undefined := by
  induction fs with
  | nil => cases hk
  | cons p fs ih =>
    obtain ⟨k0, v⟩ := p
    by_cases he : k0 = k
    · simp only [objGet, findField?, if_pos he]
      exact hv (k0, v) (List.mem_cons_self _ _)
    · simp only [objGet, findField?, if_neg he]
      have hk2 : k ∈ fs.map Prod.fst := by
        rw [List.map_cons] at hk
        rcases List.mem_cons.mp hk with h1 | h1
        · exact absurd h1.symm he
        · exact h1
      have := ih hk2 (fun q hq => hv q (List.mem_cons_of_mem _ hq))
      simpa [objGet] using this

/-- find? only depends on the predicate's values on the list. -/
theorem find?_congr_of_eq {α : Type} (p q : α → Bool) :
    ∀ l : List α, (∀ x ∈ l, p x = q x) → l.find? p = l.find? q := by
  intro l
  induction l with
  | nil => intro _; rfl
  | cons x l ih =>
    intro hpq
    have hx := hpq x (List.mem_cons_self x l)
    cases hq : q x with
    | true =>
      rw [List.find?_cons_of_pos _ (hx.trans hq), List.find?_cons_of_pos _ hq]
    | false =>
      have hp2 : ¬p x = true := by simp [hx, hq]
      have hq2 : ¬q x = true := by simp [hq]
      rw [List.find?_cons_of_neg _ hp2, List.find?_cons_of_neg _ hq2]
      exact ih (fun y hy => hpq y (List.mem_cons_of_mem x hy))

/-- find? succeeds when some member satisfies the predicate. -/
theorem find?_some_of_mem {α : Type} (p : α → Bool) (x : α) :
    ∀ l : List α, x ∈ l → p x = true → ∃ y, l.find? p = some y := by
  intro l
  induction l with
  | nil => intro hx _; cases hx
  | cons z l ih =>
    intro hx hpx
    cases hz : p z with
    | true => exact ⟨z, List.find?_cons_of_pos _ hz⟩
    | false =>
      have hz2 : ¬p z = true := by simp [hz]
      rcases List.mem_cons.mp hx with rfl | hx2
      · exact absurd hpx (by simp [hz])
      · obtain ⟨y, hy⟩ := ih hx2 hpx
        exact ⟨y, by rw [List.find?_cons_of_neg _ hz2]; exact hy⟩

/-- A duplicate-free list contained in another is no longer than it. -/
theorem nodup_length_le_of_subset {α : Type} [DecidableEq α] :
    ∀ l1 l2 : List α, l1.Nodup → (∀ x ∈ l1, x ∈ l2) →
      l1.length ≤ l2.length := by
  intro l1
  induction l1 with
  | nil => intro l2 _ _; simp
  | cons x l ih =>
    intro l2 hnd hsub
    have hx : x ∈ l2 := hsub x (List.mem_cons_self x l)
    have hnd2 := List.nodup_cons.mp hnd
    have hst : ∀ y ∈ l, y ∈ l2.erase x := by
      intro y hy
      have hyx : y ≠ x := fun he => hnd2.1 (he ▸ hy)
      exact (List.mem_erase_of_ne hyx).mpr (hsub y (List.mem_cons_of_mem x hy))
    have hle := ih (l2.erase x) hnd2.2 hst
    have her := List.length_erase_add_one hx
    simp only [List.length_cons]
    omega

/-- Pigeonhole: a duplicate-free list longer than another has an element
outside it. -/
theorem exists_not_mem_of_nodup_longer {α : Type} [DecidableEq α]
    (l1 l2 : List α) (hnd : l1.Nodup) (hlen : l2.length < l1.length) :
    ∃ x, x ∈ l1 ∧ x ∉ l2 := by
  by_contra hc
  push_neg at hc
  exact absurd (nodup_length_le_of_subset l1 l2 hnd hc) (by omega)

/-- C6 amended: when both operands are plain objects with no length key,
no undefined-valued fields, duplicate-free key lists, and no key that is
an inherited object-prototype property name (so that the scan's
undefined test coincides with own-key absence) whose own-key counts
differ, the comparison scans the larger side's keys against the smaller
side and fails at the first key present in one side but absent from the
other: kind MissingKey when the key is absent from actual, kind
UnexpectedKey when the key is present in actual but absent from
expected, the message carrying the full dotted path to that key. -/
theorem C6_key_count_mismatch (h : Heap) (f : Nat) (m : String) (i j : Nat)
    (efs afs : List (String × Value)) (kt : List String) (vm : VMap)
    (hi : lookupObj h i = .obj efs) (hj : lookupObj h j = .obj afs)
    (hnde : (efs.map Prod.fst).Nodup) (hnda : (afs.map Prod.fst).Nodup)
    (hle2 : "length" ∉ efs.map Prod.fst) (hla2 : "length" ∉ afs.map Prod.fst)
    (hue : ∀ p ∈ efs, p.2 ≠ Value.undefined) (hua : ∀ p ∈ afs, p.2 ≠ Value.undefined)
    (hpe : ∀ k ∈ efs.map Prod.fst, objectProtoGet k = Value.undefined)
    (hpa : ∀ k ∈ afs.map Prod.fst, objectProtoGet k = Value.undefined)
    (hcnt : efs.length ≠ afs.length)
    (hmi : Value.ref i ∉ vm) (hmj : Value.ref j ∉ vm) :
    (afs.length < efs.length →
      ∃ k, (efs.map Prod.fst).find?
          (fun k0 => decide (k0 ∉ afs.map Prod.fst)) = some k ∧
        assertEquals h (f + 1) m (.ref i) (.ref j) kt vm =
          .err ⟨.MissingKey,
            m ++ ": Expected " ++ joinDot (kt ++ [k]) ++
              " but was not found"⟩) ∧
    (efs.length < afs.length →
      ∃ k, (afs.map Prod.fst).find?
          (fun k0 => decide (k0 ∉ efs.map Prod.fst)) = some k ∧
        assertEquals h (f + 1) m (.ref i) (.ref j) kt vm =
          .err ⟨.UnexpectedKey,
            m ++ ": Found unexpected " ++ joinDot (kt ++ [k])⟩) := by
  have hne : Value.ref i ≠ Value.ref j := by
    intro heq
    injection heq with hij
    rw [hij, hj] at hi
    injection hi with hxy
    exact hcnt (hxy ▸ rfl)
  have harre : isArray h (Value.ref i) = false := by simp [isArray, hi]
  have harra : isArray h (Value.ref j) = false := by simp [isArray, hj]
  have hpl : objectProtoGet "length" = Value.undefined := by decide
  have hlene : jsLength h (Value.ref i) = Value.undefined := by
    simp [jsLength, hi, objGet_eq_proto_of_not_mem hle2, hpl]
  have hlena : jsLength h (Value.ref j) = Value.undefined := by
    simp [jsLength, hj, objGet_eq_proto_of_not_mem hla2, hpl]
  have hek : objectKeys h (Value.ref i) = efs.map Prod.fst := by
    simp [objectKeys, hi]
  have hak : objectKeys h (Value.ref j) = afs.map Prod.fst := by
    simp [objectKeys, hj]
  have hstep : assertEquals h (f + 1) m (Value.ref i) (Value.ref j) kt vm =
      match keyCountScan h m (Value.ref i) (Value.ref j) kt with
      | some fl => Res.err fl
      | none => compareKeys
          (fun e2 a2 kt2 vm2 => assertEquals h f m e2 a2 kt2 vm2) h m
          (Value.ref i) (Value.ref j) kt (objectKeys h (Value.ref i))
          (Value.ref i :: vm) := by
    simp only [assertEquals]
    unfold assertStep
    rw [if_neg (jsStrictEq_ne_true_of_ne hne),
      if_neg (fun hc => hc.elim hmi hmj),
      if_neg (not_ne_iff.mpr
        (show jsTypeof (Value.ref i) = jsTypeof (Value.ref j) from rfl)),
      if_neg (not_ne_iff.mpr (harre.trans harra.symm)),
      if_neg (not_ne_iff.mpr
        (show jsTypeof (Value.ref j) = "object" from rfl)),
      if_neg (fun hc => hc.1.elim
        (fun hx => Value.noConfusion hx) (fun hx => Value.noConfusion hx)),
      hlene, hlena,
      if_neg (show ¬jsStrictEq Value.undefined Value.undefined = false by
        decide)]
  constructor
  · intro hgt
    have hgt2 : (afs.map Prod.fst).length < (efs.map Prod.fst).length := by
      simpa using hgt
    obtain ⟨k1, hk1, hk2⟩ := exists_not_mem_of_nodup_longer
      (efs.map Prod.fst) (afs.map Prod.fst) hnde hgt2
    obtain ⟨k, hk⟩ := find?_some_of_mem
      (fun k0 => decide (k0 ∉ afs.map Prod.fst)) k1 (efs.map Prod.fst) hk1
      (decide_eq_true hk2)
    have hfind_eq : (efs.map Prod.fst).find?
        (fun k0 => decide (getProp h (Value.ref j) k0 = Value.undefined)) =
        (efs.map Prod.fst).find?
          (fun k0 => decide (k0 ∉ afs.map Prod.fst)) := by
      apply find?_congr_of_eq
      intro k0 hk0
      apply decide_eq_decide.mpr
      have hgp : getProp h (Value.ref j) k0 = objGet afs k0 := by
        simp [getProp, hj]
      constructor
      · intro hu hm
        exact objGet_ne_undefined_of_mem hm hua (hgp.symm.trans hu)
      · intro hnm
        exact hgp.trans
          ((objGet_eq_proto_of_not_mem hnm).trans (hpe k0 hk0))
    have hscan : keyCountScan h m (Value.ref i) (Value.ref j) kt =
        some ⟨.MissingKey,
          m ++ ": Expected " ++ joinDot (kt ++ [k]) ++
            " but was not found"⟩ := by
      unfold keyCountScan
      simp only [hek, hak]
      rw [if_pos (by simpa using hcnt), if_pos hgt2, hfind_eq, hk]
      rfl
    refine ⟨k, hk, ?_⟩
    rw [hstep, hscan]
  · intro hlt
    have hlt2 : (efs.map Prod.fst).length < (afs.map Prod.fst).length := by
      simpa using hlt
    obtain ⟨k1, hk1, hk2⟩ := exists_not_mem_of_nodup_longer
      (afs.map Prod.fst) (efs.map Prod.fst) hnda hlt2
    obtain ⟨k, hk⟩ := find?_some_of_mem
      (fun k0 => decide (k0 ∉ efs.map Prod.fst)) k1 (afs.map Prod.fst) hk1
      (decide_eq_true hk2)
    have hfind_eq : (afs.map Prod.fst).find?
        (fun k0 => decide (getProp h (Value.ref i) k0 = Value.undefined)) =
        (afs.map Prod.fst).find?
          (fun k0 => decide (k0 ∉ efs.map Prod.fst)) := by
      apply find?_congr_of_eq
      intro k0 hk0
      apply decide_eq_decide.mpr
      have hgp : getProp h (Value.ref i) k0 = objGet efs k0 := by
        simp [getProp, hi]
      constructor
      · intro hu hm
        exact objGet_ne_undefined_of_mem hm hue (hgp.symm.trans hu)
      · intro hnm
        exact hgp.trans
          ((objGet_eq_proto_of_not_mem hnm).trans (hpa k0 hk0))
    have hscan : keyCountScan h m (Value.ref i) (Value.ref j) kt =
        some ⟨.UnexpectedKey,
          m ++ ": Found unexpected " ++ joinDot (kt ++ [k])⟩ := by
      unfold keyCountScan
      simp only [hek, hak]
      rw [if_pos (by simpa using hcnt), if_neg (Nat.lt_asymm hlt2),
        hfind_eq, hk]
      rfl
    refine ⟨k, hk, ?_⟩
    rw [hstep, hscan]

/-- C6 counterexample: with expected = the object with keys toString and
x and actual = the object with key x only, the own-key counts differ and
toString is the first expected own key absent from actual's own keys,
yet the comparison does not fail with MissingKey: the scan's
actual[toString] read finds the inherited built-in function, not
undefined, so the scan passes and the main key loop throws ValueMismatch
quoting the inherited function. -/
theorem C6_counterexample :
    assertEquals hC6cx 2 "t" (.ref 0) (.ref 1) [] [] =
      .err ⟨.ValueMismatch,
        "t: Expected toString \"1\" but found \"function toString() \x7b [native code] \x7d\""⟩ ∧
    (objectKeys hC6cx (.ref 0)).find?
      (fun k0 => decide (k0 ∉ objectKeys hC6cx (.ref 1))) =
      some "toString" := by
  decide

/-- C6 witness: expected with key a only against actual with keys a and c
fails with UnexpectedKey at path c. -/
theorem C6_key_count_mismatch_witness :
    assertEquals hC6 1 "t" (.ref 0) (.ref 1) [] [] =
      .err ⟨.UnexpectedKey, "t: Found unexpected c"⟩ := by
  have h1 := (C6_key_count_mismatch hC6 0 "t" 0 1
    [("a", .str "a")] [("a", .str "a"), ("c", .str "c")] [] []
    (by decide) (by decide) (by decide) (by decide) (by decide) (by decide)
    (by decide) (by decide) (by decide) (by decide) (by decide) (by decide)
    (by decide)).2 (by decide)
  obtain ⟨k, hk, hres⟩ := h1
  have h2 : (List.map Prod.fst
      [("a", Value.str "a"), ("c", Value.str "c")]).find?
      (fun k0 => decide
        (k0 ∉ List.map Prod.fst [("a", Value.str "a")])) = some "c" := by
    decide
  rw [h2] at hk
  injection hk with hk3
  subst hk3
  exact hres.trans (by decide)
